import Mathlib

/-!
Verification development for the repository health-check pipeline
(`runner.py` and `main.py`).

Shallow embedding conventions:
* text is modelled as `List Char`;
* a directory tree is the inductive `FSEntry`; a file's content is
  `Option (List Char)` where `none` means the file cannot be opened/read
  (an `open` call on it raises an `OSError`);
* process execution (`subprocess.run`) is an oracle `Nat → ExecOutcome`
  mapping the timeout parameter passed by `run_command` to the outcome of
  running the shell command: normal completion with a return code, stdout
  and stderr, a wall-clock timeout, or some other raised exception.
-/

/-- Filesystem tree: a file carries its readable content (`none` when an
attempt to open it raises), a directory carries its entries in listing
order (the order `os.listdir`/`os.walk` reports them). -/
inductive FSEntry where
  | file (name : List Char) (content : Option (List Char))
  | dir (name : List Char) (children : List FSEntry)
deriving Repr

/-- Name of a directory entry, as `os.listdir` would report it. -/
def entryName : FSEntry → List Char
  | .file n _ => n
  | .dir n _ => n

/-- Names of the entries (files and subdirectories) at the root of the
tree; `os.path.exists(os.path.join(path, name))` is membership here. -/
def rootNames : FSEntry → List (List Char)
  | .file _ _ => []
  | .dir _ children => children.map entryName

/-- First entry with the given name at the root of the tree. -/
def lookupRoot (t : FSEntry) (name : List Char) : Option FSEntry :=
  match t with
  | .file _ _ => none
  | .dir _ children => children.find? fun c => entryName c = name

/-- Outcome of executing a shell command via `subprocess.run` under a given
timeout (runner.py lines 15-22): the process completed with a return code
and captured stdout/stderr, the timeout expired (`subprocess.TimeoutExpired`),
or another exception was raised with the given message. -/
inductive ExecOutcome where
  | completed (returncode : Int) (stdout stderr : List Char)
  | timedOut
  | raised (msg : List Char)
deriving Repr, DecidableEq

/-- Result dictionary of `run_command`: exactly the keys `success` (a
boolean) and `output` (a string). -/
structure CommandResult where
  success : Bool
  output : List Char
deriving Repr, DecidableEq

/-- Embedding of `run_command` (runner.py lines 5-32). `dir_exists` is
`os.path.isdir(working_dir)`; `spawn` maps the timeout value passed to
`subprocess.run` (the source passes the literal 300) to the execution
outcome of the shell command. -/
def run_command (dir_exists : Bool) (spawn : Nat → ExecOutcome) : CommandResult :=
  if dir_exists = false then
    { success := false, output := "Error: Directory does not exist.".data }
  else
    match spawn 300 with
    | .completed rc out err =>
        if rc = 0 then { success := true, output := out }
        else { success := false, output := err }
    | .timedOut => { success := false, output := "Error: Command timed out.".data }
    | .raised m =>
        { success := false, output := "An unexpected error occurred: ".data ++ m }

/-- Embedding of `detect_project_type` (runner.py lines 34-40): a root
`package.json` entry classifies as "nodejs", else a root `requirements.txt`
entry classifies as "python", else "unknown". -/
def detect_project_type (t : FSEntry) : List Char :=
  if "package.json".data ∈ rootNames t then "nodejs".data
  else if "requirements.txt".data ∈ rootNames t then "python".data
  else "unknown".data

/-- Python substring containment (`needle in hay` on strings). -/
def containsSubstring (needle : List Char) : List Char → Bool
  | [] => needle.isEmpty
  | c :: rest => needle.isPrefixOf (c :: rest) || containsSubstring needle rest

/-- Directory-name check of `check_for_test_files` (runner.py line 46):
the yielded `dirs` list contains "tests", "test" or "__tests__". -/
def hasTestDirName (children : List FSEntry) : Bool :=
  children.any fun c =>
    match c with
    | .dir n _ => n = "tests".data ∨ n = "test".data ∨ n = "__tests__".data
    | .file _ _ => false

/-- File-name check of `check_for_test_files` (runner.py lines 49-51): some
yielded file name contains the substring "test" or "spec". -/
def hasTestFileName (children : List FSEntry) : Bool :=
  children.any fun c =>
    match c with
    | .file n _ => containsSubstring "test".data n || containsSubstring "spec".data n
    | .dir _ _ => false

mutual
/-- Embedding of `check_for_test_files` (runner.py lines 42-52): `os.walk`
visits each directory top-down with no pruning; at each directory the
subdirectory names are checked for "tests"/"test"/"__tests__" and the file
names for the substrings "test"/"spec". Walking a non-directory path yields
nothing, hence `false`. -/
def check_for_test_files : FSEntry → Bool
  | .file _ _ => false
  | .dir _ children =>
      hasTestDirName children || hasTestFileName children ||
        checkWalkChildren children
/-- Continuation of the unpruned `os.walk` of `check_for_test_files` into
each subdirectory, in listing order. -/
def checkWalkChildren : List FSEntry → Bool
  | [] => false
  | .file _ _ :: rest => checkWalkChildren rest
  | .dir n cs :: rest => check_for_test_files (.dir n cs) || checkWalkChildren rest
end

/-- Extension allowlist of `read_project_files` (main.py line 30). -/
def file_extensions : List (List Char) :=
  [".js".data, ".py".data, ".html".data, ".css".data, ".jsx".data,
   ".ts".data, ".tsx".data, ".java".data, ".go".data, ".rs".data]

/-- Ignore set of `read_project_files` (main.py line 31). -/
def ignore_dirs : List (List Char) :=
  [".git".data, "node_modules".data, "venv".data, "__pycache__".data]

/-- Python `file.endswith(file_extensions)` (main.py line 36). -/
def hasSourceExt (name : List Char) : Bool :=
  file_extensions.any fun e => e.isSuffixOf name

/-- Text appended for one successfully read file (main.py line 39):
`f"--- File: \x7bfile\x7d ---\n\x7bf.read()\x7d\n\n"`. -/
def fileBlock (name content : List Char) : List Char :=
  "--- File: ".data ++ name ++ " ---\n".data ++ content ++ "\n\n".data

/-- Extension-matching files yielded at one directory of the walk, in
listing order, paired with their readability (main.py lines 35-36). -/
def dirFiles (children : List FSEntry) : List (List Char × Option (List Char)) :=
  children.filterMap fun c =>
    match c with
    | .file n content => if hasSourceExt n then some (n, content) else none
    | .dir _ _ => none

mutual
/-- Sequence of extension-matching files visited by the pruned `os.walk` of
`read_project_files` (main.py lines 33-36): at each directory the files are
yielded first, then the walk descends into each subdirectory whose name is
not in `ignore_dirs` (the `dirs[:] = ...` pruning of line 34), in listing
order. Walking a non-directory path yields nothing. -/
def walkFiles : FSEntry → List (List Char × Option (List Char))
  | .file _ _ => []
  | .dir _ children => dirFiles children ++ walkSub children
/-- Descent of the pruned walk into the subdirectories of a directory. -/
def walkSub : List FSEntry → List (List Char × Option (List Char))
  | [] => []
  | .file _ _ :: rest => walkSub rest
  | .dir n cs :: rest =>
      (if n ∈ ignore_dirs then [] else walkFiles (.dir n cs)) ++ walkSub rest
end

/-- Accumulation loop of `read_project_files` (main.py lines 35-44): for
each visited file, an unreadable file is skipped (`except Exception:
continue`); otherwise its block is appended and, if the accumulated length
now exceeds `max_chars`, the accumulator truncated to `max_chars`
characters is returned immediately. -/
def foldSample (max_chars : Nat) : List (List Char × Option (List Char)) → List Char → List Char
  | [], acc => acc
  | (_, none) :: rest, acc => foldSample max_chars rest acc
  | (name, some c) :: rest, acc =>
      let acc' := acc ++ fileBlock name c
      if max_chars < acc'.length then acc'.take max_chars
      else foldSample max_chars rest acc'

/-- Embedding of `read_project_files` (main.py lines 24-44); the source's
default budget is `max_chars = 15000`. -/
def read_project_files (t : FSEntry) (max_chars : Nat) : List Char :=
  foldSample max_chars (walkFiles t) []

mutual
/-- Deletion of every subtree rooted at a directory whose name is in
`ignore_dirs`; used to state that such subtrees never contribute to the
sample. -/
def pruneIgnored : FSEntry → FSEntry
  | .file n c => .file n c
  | .dir n cs => .dir n (pruneList cs)
/-- Deletion of ignored-named directories from a list of entries. -/
def pruneList : List FSEntry → List FSEntry
  | [] => []
  | .file n c :: rest => .file n c :: pruneList rest
  | .dir n cs :: rest =>
      if n ∈ ignore_dirs then pruneList rest
      else .dir n (pruneList cs) :: pruneList rest
end

/-- Health report dictionary (main.py lines 64-80): the three boolean
fields written by `analyze_repository`, wire names `readme_is_present`,
`build_successful`, `tests_found_and_passed`. -/
structure HealthReport where
  readme_is_present : Bool
  build_successful : Bool
  tests_found_and_passed : Bool
deriving Repr, DecidableEq

/-- Build-command selection of main.py line 76: `"npm install" if
project_type == "nodejs" else "pip install -r requirements.txt"`. -/
def build_command_for (project_type : List Char) : List Char :=
  if project_type = "nodejs".data then "npm install".data
  else "pip install -r requirements.txt".data

/-- Test-command selection of main.py line 79: `"npm test" if
project_type == "nodejs" else "pytest"`. -/
def test_command_for (project_type : List Char) : List Char :=
  if project_type = "nodejs".data then "npm test".data else "pytest".data

/-- README step of main.py lines 67-74: `os.path.exists` on
`README.md`, and when it exists, `open(...).read()`. Opening an
unreadable file, or a directory named `README.md`, raises; the raised
exception escapes `analyze_repository`'s health-report section (it is only
caught by the outermost handler, which aborts with an HTTP 500), so the
step is `Except`-valued. -/
def readme_step (t : FSEntry) : Except (List Char) (Bool × List Char) :=
  match lookupRoot t "README.md".data with
  | none => .ok (false, [])
  | some (.file _ (some c)) => .ok (true, c)
  | some (.file _ none) => .error "OSError while reading README.md".data
  | some (.dir _ _) => .error "IsADirectoryError while reading README.md".data

/-- Decidable readability of the README step: the root has no `README.md`
entry, or that entry is a readable file. -/
def readme_readable (t : FSEntry) : Bool :=
  match lookupRoot t "README.md".data with
  | none => true
  | some (.file _ (some _)) => true
  | some (.file _ none) => false
  | some (.dir _ _) => false

/-- Health-report section of `analyze_repository` (main.py lines 63-80),
instrumented with the list of commands passed to `run_command`, in order.
`exec` maps each command string to its `subprocess.run` oracle; the
temporary directory exists, so `run_command` is called with
`dir_exists = true`. Line 80 is Python short-circuit `and`: when
`check_for_test_files` is false the test command is never run and the
field is false; when it is true the field is the test command's success. -/
def build_health_report (t : FSEntry) (exec : List Char → Nat → ExecOutcome) :
    Except (List Char) (HealthReport × List (List Char)) :=
  let project_type := detect_project_type t
  match readme_step t with
  | .error e => .error e
  | .ok (readme_present, _readme_content) =>
      let build_command := build_command_for project_type
      let build_result := run_command true (exec build_command)
      let test_command := test_command_for project_type
      if check_for_test_files t then
        let test_result := run_command true (exec test_command)
        .ok ({ readme_is_present := readme_present,
               build_successful := build_result.success,
               tests_found_and_passed := test_result.success },
             [build_command, test_command])
      else
        .ok ({ readme_is_present := readme_present,
               build_successful := build_result.success,
               tests_found_and_passed := false },
             [build_command])

/-- Opening brace character, written by code point to keep it out of
string literals. -/
def lbrace : Char := Char.ofNat 123

/-- Closing brace character. -/
def rbrace : Char := Char.ofNat 125

/-- JSON values, the result type of the `json.loads` model. Numbers are
modelled as integers; the fragment exercised here never produces
fractions or exponents. -/
inductive Json where
  | null
  | bool (b : Bool)
  | num (n : Int)
  | str (s : List Char)
  | arr (elems : List Json)
  | obj (members : List (List Char × Json))
deriving Repr

/-- JSON insignificant whitespace skipping. -/
def json_ws (s : List Char) : List Char :=
  s.dropWhile fun c => c = ' ' || c = '\t' || c = '\n' || c = '\r'

/-- Translation of a JSON string escape character; `none` makes the parse
fail (the model omits `\u` escapes, which the exercised fragment never
uses). -/
def escChar (c : Char) : Option Char :=
  if c = '"' then some '"'
  else if c = '\\' then some '\\'
  else if c = '/' then some '/'
  else if c = 'n' then some '\n'
  else if c = 't' then some '\t'
  else if c = 'r' then some '\r'
  else if c = 'b' then some (Char.ofNat 8)
  else if c = 'f' then some (Char.ofNat 12)
  else none

/-- Body of a JSON string after its opening quote: the decoded characters
and the remaining input after the closing quote. -/
def parseStringBody : List Char → Option (List Char × List Char)
  | [] => none
  | c :: rest =>
      if c = '"' then some ([], rest)
      else if c = '\\' then
        match rest with
        | [] => none
        | e :: rest2 =>
            match escChar e, parseStringBody rest2 with
            | some ch, some (s, r) => some (ch :: s, r)
            | _, _ => none
      else
        match parseStringBody rest with
        | some (s, r) => some (c :: s, r)
        | none => none

/-- Digit run folded to a natural number. -/
def digitsToNat (ds : List Char) : Nat :=
  ds.foldl (fun a c => 10 * a + (c.toNat - 48)) 0

/-- Check whether the character after a digit run would make the number a
fraction or exponent; the model rejects those. -/
def floatFollows : List Char → Bool
  | [] => false
  | c :: _ => c = '.' || c = 'e' || c = 'E'

/-- JSON integer literal (optional minus sign, digit run). -/
def parseNumber (s : List Char) : Option (Json × List Char) :=
  match s with
  | '-' :: r =>
      let ds := r.takeWhile Char.isDigit
      let rest := r.dropWhile Char.isDigit
      if ds.isEmpty then none
      else if floatFollows rest then none
      else some (.num (-(digitsToNat ds : Int)), rest)
  | _ =>
      let ds := s.takeWhile Char.isDigit
      let rest := s.dropWhile Char.isDigit
      if ds.isEmpty then none
      else if floatFollows rest then none
      else some (.num (digitsToNat ds : Int), rest)

mutual
/-- Recursive-descent JSON value parser (fuel-indexed model of the
`json.loads` grammar): returns the value and the remaining input, or
`none` on malformed input. -/
def parseValue : Nat → List Char → Option (Json × List Char)
  | 0, _ => none
  | fuel + 1, s0 =>
      let s := json_ws s0
      if "true".data.isPrefixOf s then some (.bool true, s.drop 4)
      else if "false".data.isPrefixOf s then some (.bool false, s.drop 5)
      else if "null".data.isPrefixOf s then some (.null, s.drop 4)
      else
        match s with
        | [] => none
        | c :: rest =>
            if c = '"' then
              match parseStringBody rest with
              | some (str, r) => some (.str str, r)
              | none => none
            else if c = '[' then
              match json_ws rest with
              | ']' :: r2 => some (.arr [], r2)
              | s2 =>
                  match parseElems fuel s2 with
                  | some (es, r2) => some (.arr es, r2)
                  | none => none
            else if c = lbrace then
              match json_ws rest with
              | [] => none
              | d :: r2 =>
                  if d = rbrace then some (.obj [], r2)
                  else
                    match parseMembers fuel (d :: r2) with
                    | some (ms, r3) => some (.obj ms, r3)
                    | none => none
            else parseNumber s
/-- Comma-separated JSON array elements up to the closing bracket. -/
def parseElems : Nat → List Char → Option (List Json × List Char)
  | 0, _ => none
  | fuel + 1, s =>
      match parseValue fuel s with
      | none => none
      | some (j, r) =>
          match json_ws r with
          | ',' :: r2 =>
              match parseElems fuel r2 with
              | some (es, r3) => some (j :: es, r3)
              | none => none
          | ']' :: r2 => some ([j], r2)
          | _ => none
/-- Comma-separated JSON object members up to the closing brace. -/
def parseMembers : Nat → List Char → Option (List (List Char × Json) × List Char)
  | 0, _ => none
  | fuel + 1, s =>
      match json_ws s with
      | '"' :: r =>
          match parseStringBody r with
          | none => none
          | some (key, r2) =>
              match json_ws r2 with
              | ':' :: r3 =>
                  match parseValue fuel r3 with
                  | none => none
                  | some (v, r4) =>
                      match json_ws r4 with
                      | [] => none
                      | ',' :: r5 =>
                          match parseMembers fuel r5 with
                          | some (ms, r6) => some ((key, v) :: ms, r6)
                          | none => none
                      | d :: r5 =>
                          if d = rbrace then some ([(key, v)], r5) else none
              | _ => none
      | _ => none
end

/-- Model of `json.loads`: parse one JSON value and require that only
whitespace remains (otherwise `json.loads` raises the "Extra data"
`JSONDecodeError`); `none` models a raised `JSONDecodeError`. -/
def json_loads (s : List Char) : Option Json :=
  match parseValue (s.length + 1) s with
  | some (j, r) => if json_ws r = [] then some j else none
  | none => none

/-- Python `s.find(c)`: index of the first occurrence, or -1. -/
def py_find (s : List Char) (c : Char) : Int :=
  match s.findIdx? (· = c) with
  | some i => (i : Int)
  | none => -1

/-- Python `s.rfind(c)`: index of the last occurrence, or -1. -/
def py_rfind (s : List Char) (c : Char) : Int :=
  match s.reverse.findIdx? (· = c) with
  | some j => (s.length : Int) - 1 - (j : Int)
  | none => -1

/-- Fallback dictionary of main.py line 127:
`\x7b"error": "Failed to parse AI summary.", "raw_response": summary_text\x7d`. -/
def fallback_json (raw : List Char) : Json :=
  .obj [("error".data, .str "Failed to parse AI summary.".data),
        ("raw_response".data, .str raw)]

/-- Embedding of the response-parsing step of `analyze_repository`
(main.py lines 113-127): slice the response from the first brace to one
past the last brace and `json.loads` it; when no brace pair is found or
the parse raises `JSONDecodeError`, produce the fallback dictionary. -/
def parse_summary (summary_text : List Char) : Json :=
  let start_index := py_find summary_text lbrace
  let end_index := py_rfind summary_text rbrace + 1
  if start_index ≠ -1 ∧ end_index ≠ 0 then
    match json_loads ((summary_text.take end_index.toNat).drop start_index.toNat) with
    | some j => j
    | none => fallback_json summary_text
  else fallback_json summary_text

/-- Python `s.split(sep)` for a one-character separator: `split` always
returns at least one piece. -/
def py_split (sep : Char) : List Char → List (List Char)
  | [] => [[]]
  | c :: rest =>
      if c = sep then [] :: py_split sep rest
      else
        match py_split sep rest with
        | [] => [[c]]
        | h :: tl => (c :: h) :: tl

/-- Embedding of main.py line 60, `clean_url = request.repo_url.split('?')[0]`:
the string passed to `Repo.clone_from` on line 61. -/
def clean_url (repo_url : List Char) : List Char :=
  (py_split '?' repo_url).headD []

theorem py_split_ne_nil (sep : Char) : ∀ s : List Char, py_split sep s ≠ [] := by
  intro s
  induction s with
  | nil => simp [py_split]
  | cons c rest ih =>
      by_cases h : c = sep
      · simp [py_split, h]
      · simp only [py_split, h, if_false]
        cases hr : py_split sep rest with
        | nil => exact absurd hr ih
        | cons hd tl => simp

theorem py_split_headD (sep : Char) :
    ∀ s : List Char, (py_split sep s).headD [] = s.takeWhile (fun c => c ≠ sep) := by
  intro s
  induction s with
  | nil => simp [py_split]
  | cons c rest ih =>
      by_cases h : c = sep
      · simp [py_split, h]
      · simp only [py_split, h, if_false, List.takeWhile_cons]
        cases hr : py_split sep rest with
        | nil => exact absurd hr (py_split_ne_nil sep rest)
        | cons hd tl =>
            rw [hr] at ih
            simp only [List.headD_cons, ne_eq, decide_not] at ih
            simp [h, ih]

/-- Claim C10: `analyze_repository` truncates the requested repository URL
at the first '?' (main.py line 60, `clean_url = request.repo_url.split('?')[0]`):
the string passed to the clone operation is the prefix of `repo_url` before
its first '?', contains no '?', and any query component after a '?' is
discarded. -/
theorem c10_clean_url_truncation :
    (∀ url : List Char, clean_url url = url.takeWhile (fun c => c ≠ '?'))
    ∧ (∀ url : List Char, '?' ∉ clean_url url)
    ∧ (∀ url : List Char, clean_url url <+: url)
    ∧ (∀ url q : List Char, '?' ∉ url → clean_url (url ++ '?' :: q) = url) := by
  have hmain : ∀ url : List Char, clean_url url = url.takeWhile (fun c => c ≠ '?') :=
    fun url => py_split_headD '?' url
  refine ⟨hmain, ?_, ?_, ?_⟩
  · intro url hmem
    rw [hmain] at hmem
    have := List.mem_takeWhile_imp hmem
    simp at this
  · intro url
    rw [hmain]
    exact List.takeWhile_prefix _
  · intro url q hq
    rw [hmain]
    induction url with
    | nil => simp [List.takeWhile_cons]
    | cons c rest ih =>
        simp only [List.mem_cons, not_or] at hq
        simp only [List.cons_append, List.takeWhile_cons]
        have hc : c ≠ '?' := Ne.symm hq.1
        simp only [ne_eq, decide_not] at ih
        simp [hc, ih hq.2]

/-- Claim C10 witness: a URL with a query component is truncated at the
first '?'. -/
theorem c10_witness :
    clean_url ("https://github.com/u/r.git".data ++ '?' :: "tab=readme".data)
      = "https://github.com/u/r.git".data :=
  c10_clean_url_truncation.2.2.2 "https://github.com/u/r.git".data "tab=readme".data
    (by decide)

/-- Claim C5: with an existing working directory, a process completing
with return code 0 yields success with the captured stdout, and a nonzero
return code yields failure with the captured stderr (runner.py
lines 24-27). -/
theorem c5_exit_code_semantics :
    ∀ (spawn : Nat → ExecOutcome) (rc : Int) (out err : List Char),
      spawn 300 = .completed rc out err →
      (rc = 0 → run_command true spawn = { success := true, output := out })
      ∧ (rc ≠ 0 → run_command true spawn = { success := false, output := err }) := by
  intro spawn rc out err h
  constructor
  · intro h0
    simp [run_command, h, h0]
  · intro h0
    simp [run_command, h, h0]

/-- Claim C5 witness: concrete runs with return codes 0 and 2. -/
theorem c5_witness :
    run_command true (fun _ => .completed 0 "ok".data "e".data)
      = { success := true, output := "ok".data }
    ∧ run_command true (fun _ => .completed 2 "o".data "boom".data)
      = { success := false, output := "boom".data } :=
  ⟨(c5_exit_code_semantics (fun _ => .completed 0 "ok".data "e".data) 0 "ok".data "e".data
      rfl).1 rfl,
   (c5_exit_code_semantics (fun _ => .completed 2 "o".data "boom".data) 2 "o".data "boom".data
      rfl).2 (by decide)⟩

/-- Claim C6: `run_command` passes the hard-coded 300-second timeout to the
process execution (runner.py line 21) and consults no other timeout, and
when the execution times out it returns, rather than raises, failure with
the timeout-specific message (runner.py lines 29-30). The kill of the
expired process happens inside `subprocess.run`, outside this embedding. -/
theorem c6_timeout_semantics :
    (∀ (d : Bool) (s1 s2 : Nat → ExecOutcome), s1 300 = s2 300 →
      run_command d s1 = run_command d s2)
    ∧ (∀ spawn : Nat → ExecOutcome, spawn 300 = .timedOut →
      run_command true spawn
        = { success := false, output := "Error: Command timed out.".data }) := by
  constructor
  · intro d s1 s2 h
    simp [run_command, h]
  · intro spawn h
    simp [run_command, h]

/-- Claim C6 witness: a concrete timed-out execution. -/
theorem c6_witness :
    run_command true (fun _ => .timedOut)
      = { success := false, output := "Error: Command timed out.".data } :=
  c6_timeout_semantics.2 (fun _ => .timedOut) rfl

/-- Claim C9: `run_command` is total over every directory-existence state
and every execution outcome — it always returns a result with exactly the
`success` and `output` fields, renders an unexpected execution fault as a
failure carrying the exception's textual description (runner.py
lines 31-32), and renders a missing working directory as a failure
(runner.py lines 9-10). -/
theorem c9_run_command_total :
    (∀ (d : Bool) (spawn : Nat → ExecOutcome),
      ∃ (s : Bool) (o : List Char), run_command d spawn = { success := s, output := o })
    ∧ (∀ (spawn : Nat → ExecOutcome) (m : List Char), spawn 300 = .raised m →
      run_command true spawn
        = { success := false, output := "An unexpected error occurred: ".data ++ m })
    ∧ (∀ spawn : Nat → ExecOutcome,
      run_command false spawn
        = { success := false, output := "Error: Directory does not exist.".data }) := by
  refine ⟨?_, ?_, ?_⟩
  · intro d spawn
    exact ⟨(run_command d spawn).success, (run_command d spawn).output, rfl⟩
  · intro spawn m h
    simp [run_command, h]
  · intro spawn
    simp [run_command]

/-- Claim C9 witness: a concrete raised execution fault becomes a failure
result carrying the exception text. -/
theorem c9_witness :
    run_command true (fun _ => .raised "No such file or directory".data)
      = { success := false,
          output := "An unexpected error occurred: ".data
            ++ "No such file or directory".data } :=
  c9_run_command_total.2.1 (fun _ => .raised "No such file or directory".data)
    "No such file or directory".data rfl

theorem test_command_ne_build_command (project_type : List Char) :
    test_command_for project_type ≠ build_command_for project_type := by
  by_cases h : project_type = "nodejs".data <;>
    simp [test_command_for, build_command_for, h]

/-- Claim C7: `detect_project_type` is a fixed-priority function of the
root-level entry names — a root `package.json` gives "nodejs" regardless of
other manifests, else a root `requirements.txt` gives "python", else
"unknown" (runner.py lines 34-40) — and the command selection of main.py
lines 76 and 79 maps "nodejs" to the npm commands and every other
classification to the Python-toolchain commands. -/
theorem c7_classifier_priority :
    ∀ t : FSEntry,
      ("package.json".data ∈ rootNames t → detect_project_type t = "nodejs".data)
      ∧ ("package.json".data ∉ rootNames t → "requirements.txt".data ∈ rootNames t →
          detect_project_type t = "python".data)
      ∧ ("package.json".data ∉ rootNames t → "requirements.txt".data ∉ rootNames t →
          detect_project_type t = "unknown".data)
      ∧ (detect_project_type t = "nodejs".data →
          build_command_for (detect_project_type t) = "npm install".data
          ∧ test_command_for (detect_project_type t) = "npm test".data)
      ∧ (detect_project_type t ≠ "nodejs".data →
          build_command_for (detect_project_type t) = "pip install -r requirements.txt".data
          ∧ test_command_for (detect_project_type t) = "pytest".data) := by
  intro t
  refine ⟨?_, ?_, ?_, ?_, ?_⟩
  · intro h1
    simp [detect_project_type, h1]
  · intro h1 h2
    simp [detect_project_type, h1, h2]
  · intro h1 h2
    simp [detect_project_type, h1, h2]
  · intro h
    rw [h]
    exact ⟨by simp [build_command_for], by simp [test_command_for]⟩
  · intro h
    exact ⟨by simp [build_command_for, h], by simp [test_command_for, h]⟩

/-- Claim C7 witness: a root holding both manifests classifies as "nodejs"
and maps to the npm commands; a root holding neither classifies as
"unknown" and maps to the Python-toolchain commands. -/
theorem c7_witness :
    detect_project_type
        (.dir "r".data
          [.file "package.json".data (some []), .file "requirements.txt".data (some [])])
      = "nodejs".data
    ∧ detect_project_type (.dir "r".data [.file "app.c".data (some [])]) = "unknown".data
    ∧ build_command_for (detect_project_type (.dir "r".data [.file "app.c".data (some [])]))
      = "pip install -r requirements.txt".data
    ∧ test_command_for (detect_project_type (.dir "r".data [.file "app.c".data (some [])]))
      = "pytest".data := by
  have hboth := (c7_classifier_priority
    (.dir "r".data
      [.file "package.json".data (some []), .file "requirements.txt".data (some [])])).1
    (by decide)
  have hnone := (c7_classifier_priority (.dir "r".data [.file "app.c".data (some [])])).2.2.1
    (by decide) (by decide)
  have hmap := (c7_classifier_priority (.dir "r".data [.file "app.c".data (some [])])).2.2.2.2
    (by rw [hnone]; decide)
  exact ⟨hboth, hnone, hmap.1, hmap.2⟩

/-- Claim C1: in the health report built by `analyze_repository` (main.py
line 80), `tests_found_and_passed` is true only when test-file detection
returned true and the test command run succeeded, and when no test files
are detected the field is false and the test command is never passed to
`run_command` (the instrumented command list omits it). -/
theorem c1_tests_found_and_passed :
    ∀ (t : FSEntry) (exec : List Char → Nat → ExecOutcome)
      (hr : HealthReport) (cmds : List (List Char)),
      build_health_report t exec = .ok (hr, cmds) →
      (hr.tests_found_and_passed = true →
        check_for_test_files t = true
        ∧ (run_command true (exec (test_command_for (detect_project_type t)))).success = true)
      ∧ (check_for_test_files t = false →
        hr.tests_found_and_passed = false
        ∧ test_command_for (detect_project_type t) ∉ cmds) := by
  intro t exec hr cmds h
  unfold build_health_report at h
  cases hre : readme_step t with
  | error e => rw [hre] at h; exact absurd h (by simp)
  | ok pr =>
      obtain ⟨present, content⟩ := pr
      rw [hre] at h
      cases hc : check_for_test_files t with
      | true =>
          simp only [hc, if_true, Except.ok.injEq, Prod.mk.injEq] at h
          obtain ⟨hhr, -⟩ := h
          subst hhr
          constructor
          · intro htests
            exact ⟨rfl, htests⟩
          · intro hfalse
            simp [hc] at hfalse
      | false =>
          simp only [hc, Bool.false_eq_true, if_false, Except.ok.injEq, Prod.mk.injEq] at h
          obtain ⟨hhr, hcmds⟩ := h
          subst hhr
          subst hcmds
          constructor
          · intro htests
            simp at htests
          · intro _
            refine ⟨rfl, ?_⟩
            simp only [List.mem_singleton]
            exact test_command_ne_build_command (detect_project_type t)

/-- Claim C1 witness: a Python repository with no test files gets
`tests_found_and_passed = false` and its test command "pytest" is never
passed to `run_command`, even though the build succeeds. -/
theorem c1_witness :
    build_health_report
        (.dir "repo".data [.file "requirements.txt".data (some [])])
        (fun _ _ => .completed 0 [] [])
      = .ok ({ readme_is_present := false, build_successful := true,
               tests_found_and_passed := false },
             ["pip install -r requirements.txt".data])
    ∧ "pytest".data ∉ ["pip install -r requirements.txt".data] := by
  have hrep : build_health_report
      (.dir "repo".data [.file "requirements.txt".data (some [])])
      (fun _ _ => .completed 0 [] [])
      = .ok ({ readme_is_present := false, build_successful := true,
               tests_found_and_passed := false },
             ["pip install -r requirements.txt".data]) := by rfl
  have h := (c1_tests_found_and_passed
    (.dir "repo".data [.file "requirements.txt".data (some [])])
    (fun _ _ => .completed 0 [] [])
    { readme_is_present := false, build_successful := true, tests_found_and_passed := false }
    ["pip install -r requirements.txt".data] hrep).2 (by rfl)
  refine ⟨hrep, ?_⟩
  have hcmd : test_command_for (detect_project_type
      (.dir "repo".data [.file "requirements.txt".data (some [])])) = "pytest".data := by rfl
  rw [hcmd] at h
  exact h.2

theorem readme_step_classify (t : FSEntry) :
    (readme_readable t = true ∧ ∃ p c, readme_step t = Except.ok (p, c))
    ∨ (readme_readable t = false ∧ ∃ e, readme_step t = Except.error e) := by
  unfold readme_readable readme_step
  cases lookupRoot t "README.md".data with
  | none => exact Or.inl ⟨rfl, false, [], rfl⟩
  | some e =>
      cases e with
      | file n c =>
          cases c with
          | none => exact Or.inr ⟨rfl, _, rfl⟩
          | some cc => exact Or.inl ⟨rfl, true, cc, rfl⟩
      | dir n cs => exact Or.inr ⟨rfl, _, rfl⟩

/-- Claim C4 counterexample: the claim that every filesystem error in a
health-report sub-step is absorbed into a boolean field is false — a
repository whose root `README.md` exists but cannot be read (main.py
line 71 `open` raises) makes the health-report section raise instead of
returning a report, even though every command would succeed. -/
theorem c4_counterexample :
    build_health_report (.dir "repo".data [.file "README.md".data none])
        (fun _ _ => .completed 0 [] [])
      = .error "OSError while reading README.md".data := by rfl

/-- Claim C4 (amended): errors in the build command, test detection and
test command are absorbed — `run_command` turns timeouts and raised
execution faults into `success = false` and the builder records only
booleans — and whenever the root `README.md` is absent or readable the
health report is returned fully populated; but a filesystem error while
reading an existing `README.md` propagates as an exception and no report
is produced. -/
theorem c4_error_absorption_amended :
    ∀ (t : FSEntry) (exec : List Char → Nat → ExecOutcome),
      (readme_readable t = true →
        ∃ hr cmds, build_health_report t exec = Except.ok (hr, cmds))
      ∧ (readme_readable t = false →
        ∃ e, build_health_report t exec = Except.error e)
      ∧ (∀ spawn : Nat → ExecOutcome,
          spawn 300 = .timedOut ∨ (∃ m, spawn 300 = .raised m) →
          (run_command true spawn).success = false) := by
  intro t exec
  refine ⟨?_, ?_, ?_⟩
  · intro hok
    rcases readme_step_classify t with ⟨-, p, c, hstep⟩ | ⟨hbad, -⟩
    · unfold build_health_report
      rw [hstep]
      cases hc : check_for_test_files t with
      | true =>
          simp only [hc, if_true]
          exact ⟨_, _, rfl⟩
      | false =>
          simp only [hc, Bool.false_eq_true, if_false]
          exact ⟨_, _, rfl⟩
    · rw [hok] at hbad
      cases hbad
  · intro hbad
    rcases readme_step_classify t with ⟨hgood, -⟩ | ⟨-, e, hstep⟩
    · rw [hbad] at hgood
      cases hgood
    · unfold build_health_report
      rw [hstep]
      exact ⟨e, rfl⟩
  · intro spawn hfault
    rcases hfault with ht | ⟨m, hm⟩
    · simp [run_command, ht]
    · simp [run_command, hm]

/-- Claim C4 witness: a repository with a readable README produces a fully
populated report, a timed-out command yields a false field. -/
theorem c4_witness :
    (∃ hr cmds,
      build_health_report (.dir "repo".data [.file "README.md".data (some "hi".data)])
        (fun _ _ => .completed 0 [] []) = Except.ok (hr, cmds))
    ∧ (run_command true (fun _ => .timedOut)).success = false :=
  ⟨(c4_error_absorption_amended
      (.dir "repo".data [.file "README.md".data (some "hi".data)])
      (fun _ _ => .completed 0 [] [])).1 rfl,
   (c4_error_absorption_amended (.dir "repo".data [.file "README.md".data (some "hi".data)])
      (fun _ _ => .completed 0 [] [])).2.2 (fun _ => .timedOut) (Or.inl rfl)⟩

theorem fileBlock_length_pos (name c : List Char) : 0 < (fileBlock name c).length := by
  simp [fileBlock]

theorem foldSample_length_le (m : Nat) :
    ∀ (l : List (List Char × Option (List Char))) (acc : List Char),
      acc.length ≤ m → (foldSample m l acc).length ≤ m := by
  intro l
  induction l with
  | nil => intro acc h; simpa [foldSample] using h
  | cons p rest ih =>
      intro acc h
      obtain ⟨name, copt⟩ := p
      cases copt with
      | none => simpa [foldSample] using ih acc h
      | some c =>
          by_cases hlt : m < (acc ++ fileBlock name c).length
          · simp only [foldSample]
            rw [if_pos hlt]
            simp [List.length_take]
          · simp only [foldSample]
            rw [if_neg hlt]
            exact ih _ (Nat.le_of_not_lt hlt)

theorem foldSample_zero : ∀ l, foldSample 0 l [] = [] := by
  intro l
  induction l with
  | nil => rfl
  | cons p rest ih =>
      obtain ⟨name, copt⟩ := p
      cases copt with
      | none => simpa [foldSample] using ih
      | some c =>
          have hpos : 0 < (([] : List Char) ++ fileBlock name c).length := by
            simpa using fileBlock_length_pos name c
          simp only [foldSample]
          rw [if_pos hpos]
          simp

/-- Claim C3: the sampler never returns more than `max_chars` characters;
with `max_chars = 0` it returns the empty string; and as soon as an append
pushes the accumulated length beyond `max_chars`, the loop returns the
accumulator truncated to exactly `max_chars` characters immediately — the
result no longer depends on the files not yet visited. -/
theorem c3_sampler_bounded :
    (∀ (t : FSEntry) (max_chars : Nat),
      (read_project_files t max_chars).length ≤ max_chars)
    ∧ (∀ t : FSEntry, read_project_files t 0 = [])
    ∧ (∀ (max_chars : Nat) (name c : List Char)
        (rest : List (List Char × Option (List Char))) (acc : List Char),
        max_chars < (acc ++ fileBlock name c).length →
        foldSample max_chars ((name, some c) :: rest) acc
          = (acc ++ fileBlock name c).take max_chars
        ∧ (foldSample max_chars ((name, some c) :: rest) acc).length = max_chars) := by
  refine ⟨?_, ?_, ?_⟩
  · intro t m
    exact foldSample_length_le m (walkFiles t) [] (by simp)
  · intro t
    exact foldSample_zero (walkFiles t)
  · intro m name c rest acc hlt
    constructor
    · simp only [foldSample]
      rw [if_pos hlt]
    · simp only [foldSample]
      rw [if_pos hlt]
      simp only [List.length_take]
      omega

/-- Claim C3 witness: a budget of 3 truncates the very first file block to
exactly 3 characters without looking at later files. -/
theorem c3_witness :
    foldSample 3 [("a.py".data, some "x".data), ("b.py".data, none)] [] = "---".data
    ∧ (foldSample 3 [("a.py".data, some "x".data), ("b.py".data, none)] []).length = 3 := by
  have h := c3_sampler_bounded.2.2 3 "a.py".data "x".data [("b.py".data, none)] []
    (by decide)
  exact ⟨by rw [h.1]; rfl, h.2⟩

theorem dirFiles_pruneList : ∀ cs : List FSEntry, dirFiles (pruneList cs) = dirFiles cs := by
  intro cs
  induction cs with
  | nil => simp [pruneList]
  | cons c rest ih =>
      cases c with
      | file n co =>
          simp only [dirFiles] at ih ⊢
          simp only [pruneList, List.filterMap_cons]
          cases hext : hasSourceExt n <;> simp [hext, ih]
      | dir n cs2 =>
          by_cases hig : n ∈ ignore_dirs
          · simp only [pruneList, if_pos hig]
            rw [ih]
            simp [dirFiles, List.filterMap_cons]
          · simp only [pruneList, if_neg hig]
            simp only [dirFiles, List.filterMap_cons] at ih ⊢
            simpa using ih

theorem walkSub_append : ∀ l1 l2 : List FSEntry, walkSub (l1 ++ l2) = walkSub l1 ++ walkSub l2 := by
  intro l1 l2
  induction l1 with
  | nil => simp [walkSub]
  | cons c rest ih =>
      cases c with
      | file n co => simpa [walkSub] using ih
      | dir n cs2 => simp [walkSub, ih, List.append_assoc]

mutual
theorem walkFiles_prune : ∀ t : FSEntry, walkFiles (pruneIgnored t) = walkFiles t
  | .file n c => by simp [pruneIgnored]
  | .dir n cs => by
      simp only [pruneIgnored, walkFiles]
      rw [dirFiles_pruneList cs, walkSub_prune cs]
theorem walkSub_prune : ∀ cs : List FSEntry, walkSub (pruneList cs) = walkSub cs
  | [] => by simp [pruneList]
  | .file n c :: rest => by
      simp only [pruneList, walkSub]
      exact walkSub_prune rest
  | .dir n cs2 :: rest => by
      by_cases hig : n ∈ ignore_dirs
      · simp only [pruneList, if_pos hig]
        simp only [walkSub, if_pos hig]
        simpa using walkSub_prune rest
      · simp only [pruneList, if_neg hig]
        simp only [walkSub, if_neg hig]
        have hp : pruneIgnored (FSEntry.dir n cs2) = FSEntry.dir n (pruneList cs2) := by
          simp [pruneIgnored]
        rw [← hp, walkSub_prune rest, walkFiles_prune (FSEntry.dir n cs2)]
end

/-- Claim C8: the sampler's ignore set is exactly the version-control
metadata directory, the Node dependency directory, the Python
virtual-environment directory and the bytecode-cache directory; deleting
every subtree rooted at an ignored directory name changes neither the
visited file sequence nor the sample, and inserting an ignored-named
directory subtree anywhere among a directory's children leaves the walk
unchanged — so no file under such a directory ever appears in the sample,
whatever its extension. -/
theorem c8_ignored_dirs_pruned :
    ignore_dirs = [".git".data, "node_modules".data, "venv".data, "__pycache__".data]
    ∧ (∀ t : FSEntry, walkFiles (pruneIgnored t) = walkFiles t)
    ∧ (∀ (t : FSEntry) (m : Nat),
        read_project_files (pruneIgnored t) m = read_project_files t m)
    ∧ (∀ (root bad : List Char) (sub pre post : List FSEntry), bad ∈ ignore_dirs →
        walkFiles (.dir root (pre ++ FSEntry.dir bad sub :: post))
          = walkFiles (.dir root (pre ++ post))) := by
  refine ⟨rfl, walkFiles_prune, ?_, ?_⟩
  · intro t m
    unfold read_project_files
    rw [walkFiles_prune t]
  · intro root bad sub pre post hbad
    simp only [walkFiles, dirFiles, List.filterMap_append, List.filterMap_cons,
      walkSub_append, walkSub]
    rw [if_pos hbad]
    simp

/-- Claim C8 witness: a matching-extension file under `node_modules` does
not appear in the walk. -/
theorem c8_witness :
    walkFiles
      (.dir "r".data
        [FSEntry.dir "node_modules".data [.file "evil.js".data (some [])],
         .file "a.py".data (some "x".data)])
      = walkFiles (.dir "r".data [.file "a.py".data (some "x".data)]) := by
  have h := c8_ignored_dirs_pruned.2.2.2 "r".data "node_modules".data
    [FSEntry.file "evil.js".data (some [])] []
    [FSEntry.file "a.py".data (some "x".data)] (by decide)
  simpa using h

theorem py_find_append_first (pre rest : List Char) (c : Char) (hpre : c ∉ pre) :
    py_find (pre ++ c :: rest) c = (pre.length : Int) := by
  unfold py_find
  have hnone : pre.findIdx? (· = c) = none := by
    rw [List.findIdx?_eq_none_iff]
    intro x hx
    simp only [decide_eq_false_iff_not]
    exact fun heq => hpre (heq ▸ hx)
  rw [List.findIdx?_append, hnone]
  simp [List.findIdx?_cons]

theorem py_rfind_append_last (front tail : List Char) (c : Char) (htail : c ∉ tail) :
    py_rfind (front ++ c :: tail) c = (front.length : Int) := by
  unfold py_rfind
  have hrev : (front ++ c :: tail).reverse = tail.reverse ++ c :: front.reverse := by
    simp
  rw [hrev]
  have hnone : tail.reverse.findIdx? (· = c) = none := by
    rw [List.findIdx?_eq_none_iff]
    intro x hx
    simp only [decide_eq_false_iff_not]
    rw [List.mem_reverse] at hx
    exact fun heq => htail (heq ▸ hx)
  rw [List.findIdx?_append, hnone]
  simp [List.findIdx?_cons, List.length_append]
  omega

/-- Claim C2: the response parser of `analyze_repository` slices from the
first opening brace to the last closing brace and parses that slice — a
response that is exactly the object with key "a" and value 1 parses to
that mapping; a response wrapping that object in prose (no opening brace
before it, no closing brace after it) still extracts and parses the object;
and when no brace pair exists or the slice fails to parse, the result is
the structured fallback object with the error message and the raw
response, with no parse exception propagating (the embedding is total). -/
theorem c2_json_extraction :
    (parse_summary "\x7b\"a\":1\x7d".data = Json.obj [("a".data, Json.num 1)])
    ∧ (∀ pre post : List Char, lbrace ∉ pre → rbrace ∉ post →
        parse_summary (pre ++ "\x7b\"a\":1\x7d".data ++ post)
          = Json.obj [("a".data, Json.num 1)])
    ∧ (∀ text : List Char,
        py_find text lbrace = -1 ∨ py_rfind text rbrace = -1 →
        parse_summary text = fallback_json text)
    ∧ (∀ text : List Char,
        json_loads ((text.take (py_rfind text rbrace + 1).toNat).drop
            (py_find text lbrace).toNat) = none →
        parse_summary text = fallback_json text) := by
  refine ⟨by rfl, ?_, ?_, ?_⟩
  · intro pre post hpre hpost
    have hsplit : ("\x7b\"a\":1\x7d".data : List Char)
        = lbrace :: ("\"a\":1".data ++ [rbrace]) := by decide
    have hshape1 : pre ++ "\x7b\"a\":1\x7d".data ++ post
        = pre ++ lbrace :: ("\"a\":1".data ++ [rbrace] ++ post) := by
      rw [hsplit]
      simp [List.append_assoc]
    have hshape2 : pre ++ "\x7b\"a\":1\x7d".data ++ post
        = (pre ++ lbrace :: "\"a\":1".data) ++ rbrace :: post := by
      rw [hsplit]
      simp [List.append_assoc]
    have hF : py_find (pre ++ "\x7b\"a\":1\x7d".data ++ post) lbrace = (pre.length : Int) := by
      rw [hshape1]
      exact py_find_append_first pre _ lbrace hpre
    have hR : py_rfind (pre ++ "\x7b\"a\":1\x7d".data ++ post) rbrace
        = (pre.length : Int) + 6 := by
      rw [hshape2, py_rfind_append_last _ post rbrace hpost]
      simp
    simp only [parse_summary]
    rw [hF, hR]
    rw [if_pos (by constructor <;> omega)]
    have htn1 : ((pre.length : Int)).toNat = pre.length := by omega
    have htn2 : ((pre.length : Int) + 6 + 1).toNat = pre.length + 7 := by omega
    rw [htn1, htn2]
    have htake : (pre ++ "\x7b\"a\":1\x7d".data ++ post).take (pre.length + 7)
        = pre ++ "\x7b\"a\":1\x7d".data := by
      exact List.take_left' (by simp)
    have hdrop : (pre ++ "\x7b\"a\":1\x7d".data).drop pre.length = "\x7b\"a\":1\x7d".data :=
      List.drop_left pre _
    rw [htake, hdrop]
    rfl
  · intro text h
    simp only [parse_summary]
    rcases h with h | h
    · rw [h]
      rw [if_neg (fun hc => hc.1 rfl)]
    · rw [h]
      rw [if_neg (fun hc => hc.2 (by norm_num))]
  · intro text h
    simp only [parse_summary]
    by_cases hc : py_find text lbrace ≠ -1 ∧ py_rfind text rbrace + 1 ≠ 0
    · rw [if_pos hc, h]
    · rw [if_neg hc]

/-- Claim C2 witness: a prose-wrapped object parses to the mapping; a
brace-free response and an unparsable brace pair both fall back. -/
theorem c2_witness :
    parse_summary
        ("Sure, here it is: ".data ++ "\x7b\"a\":1\x7d".data ++ " hope this helps".data)
      = Json.obj [("a".data, Json.num 1)]
    ∧ parse_summary "no object here".data = fallback_json "no object here".data
    ∧ parse_summary "\x7bnot json\x7d".data = fallback_json "\x7bnot json\x7d".data := by
  refine ⟨?_, ?_, ?_⟩
  · exact c2_json_extraction.2.1 "Sure, here it is: ".data " hope this helps".data
      (by decide) (by decide)
  · exact c2_json_extraction.2.2.1 "no object here".data (Or.inl (by decide))
  · exact c2_json_extraction.2.2.2 "\x7bnot json\x7d".data (by rfl)
